import Mathlib

/-!
Verification of the vanilla-webapp SPA router

Shallow embedding of the Route / Router engine of
`src/app/pages/app/index.js` (the current revision of the router; the
files under `src/unnamed/` are earlier revisions of the same module).

JavaScript objects are modelled as Lean structures, mutation as explicit
state passing, promises/async control flow as explicit completion times
where a claim is about ordering, and the DOM head as an explicit list of
tags.  Strings are Lean `String`s; all string scanning is implemented by
structural recursion over `String.data` so that every definition
evaluates inside the kernel (`decide` / `rfl`).
-/

set_option autoImplicit false

namespace VanillaRouter

/-! ## String utilities

`path.split('/').filter(Boolean)` and the template-regex scanning are
implemented charwise.  JS `split` on the single character `/` keeps empty
pieces between adjacent separators; `filter(Boolean)` then drops the
empty strings. -/

/-- Split a character list at every occurrence of the separator
(JS `String.prototype.split` with a one-character separator). -/
def splitCharAux (sep : Char) : List Char → List Char → List String
  | [], acc => [String.mk acc.reverse]
  | c :: cs, acc =>
    if c = sep then String.mk acc.reverse :: splitCharAux sep cs []
    else splitCharAux sep cs (c :: acc)

/-- The `path.split('/').filter(Boolean)` from `Route`'s constructor and
`Router.findRoute`: the non-empty `/`-delimited segments of a path. -/
def splitPath (path : String) : List String :=
  (splitCharAux '/' path.data []).filter (fun s => s ≠ "")

/-- The `part.startsWith(':')` (charwise, so it evaluates in the kernel). -/
def startsWithColon (s : String) : Bool :=
  match s.data with
  | [] => false
  | c :: _ => c = ':'

/-- The `part.slice(1)`: the parameter name of a `:name` segment. -/
def sliceOne (s : String) : String :=
  String.mk (s.data.drop 1)

/-! ## Params objects

`this.params` is a plain JS object used as a string-keyed map.  We model
it as an association list; assignment overwrites in place (JS keeps the
original insertion position of an overwritten property). -/

/-- JS object property assignment `m[k] = v`. -/
def setKey : List (String × String) → String → String → List (String × String)
  | [], k, v => [(k, v)]
  | (k', v') :: rest, k, v =>
    if k' = k then (k, v) :: rest else (k', v') :: setKey rest k v

/-- JS object property read `m[k]` (`none` = `undefined`). -/
def lookupKey : List (String × String) → String → Option String
  | [], _ => none
  | (k', v') :: rest, k => if k' = k then some v' else lookupKey rest k

/-! ## The Route data model -/

/-- The `Route.path`: either the `404` sentinel or the compiled segment
list (`path.split('/').filter(Boolean)`). -/
inductive RPath where
  | notFound
  | segs (ps : List String)
deriving DecidableEq, Repr

/-- The `OpenGraph` metadata (all fields optional strings). -/
structure OpenGraph where
  url : Option String := none
  type : Option String := none
  title : Option String := none
  description : Option String := none
  image : Option String := none
deriving DecidableEq, Repr

/-- The `Twitter` metadata (all fields optional strings). -/
structure TwitterCard where
  card : Option String := none
  domain : Option String := none
  url : Option String := none
  title : Option String := none
  description : Option String := none
  image : Option String := none
deriving DecidableEq, Repr

/-- The `RouteMeta`: optional title/description plus optional `og` and
`twitter` sub-objects (`none` = the property is absent). -/
structure RouteMeta where
  title : Option String := none
  description : Option String := none
  og : Option OpenGraph := none
  twitter : Option TwitterCard := none
deriving DecidableEq, Repr

/-- The mutable state of a `Route` instance (the event-bus fields are
modelled separately, see `Bus`). `params` starts out `undefined` in JS,
hence the outer `Option`. `_content`/`_script` are the private memo
fields. -/
structure Route where
  path : RPath
  view : String
  meta : RouteMeta := {}
  _content : Option String := none
  params : Option (List (String × String)) := none
  _script : Option String := none
deriving DecidableEq, Repr

/-- The `path` constructor argument: `string | 404`. -/
inductive PathSpec where
  | sentinel404
  | str (s : String)
deriving DecidableEq, Repr

/-- The `new Route(path, view, meta)`: throws `RouteInitError` when `path`
or `view` is falsy; `404` stays the sentinel, a string is split into its
non-empty segments. -/
def Route.make (path : PathSpec) (view : String) (meta : RouteMeta := {}) :
    Except String Route :=
  match path with
  | .str "" => .error "RouteInitError: No path provided"
  | _ =>
    if view = "" then .error "RouteInitError: No view provided"
    else
      .ok { path := match path with
                    | .sentinel404 => RPath.notFound
                    | .str s => RPath.segs (splitPath s)
            view := view
            meta := meta }

/-! ## Route.match

```js
match(path, changeParams = false) {
    if (this.path === 404) return false;
    if (this.path.length !== path.length) return false;
    const params = {};
    const result = this.path.every((part, index) => {
        if (part.startsWith(':')) {
            params[part.slice(1)] = path[index];
            return true;
        }
        return part === path[index];
    })
    if (changeParams) {
        this.params = params;
        this.emit("paramsChanged")
    }
    return result;
}
```

`every` short-circuits at the first failing literal, so the locally
built `params` object holds the bindings scanned up to that point.
`matchScan` mirrors that loop; it is only reached with equal lengths. -/

/-- The `this.path.every(...)` loop: walks pattern and input segments in
lock step, binding `:name` parameters and comparing literals, stopping at
the first mismatch.  Returns the loop result and the `params` object as
built when the loop stopped. -/
def matchScan : List String → List String → List (String × String) →
    Bool × List (String × String)
  | [], _, acc => (true, acc)
  | _ :: _, [], acc => (false, acc)
  | p :: ps, i :: is, acc =>
    if startsWithColon p then matchScan ps is (setKey acc (sliceOne p) i)
    else if p = i then matchScan ps is acc
    else (false, acc)

/-- The `Route.match(path, changeParams)`: returns the boolean result, the
updated route, and whether `paramsChanged` was emitted.  Note that the
`changeParams` block runs (committing `params` and emitting) whenever the
two early returns were not taken, regardless of `result`. -/
def Route.matchRoute (r : Route) (input : List String) (changeParams : Bool) :
    Bool × Route × Bool :=
  match r.path with
  | .notFound => (false, r, false)
  | .segs ps =>
    if ps.length ≠ input.length then (false, r, false)
    else
      let res := matchScan ps input []
      if changeParams then (res.1, { r with params := some res.2 }, true)
      else (res.1, r, false)

/-! ## Template extraction (`divideContentAndScript`)

```js
const SCRIPT_REGEX = /<template [\s\S]*?[\s]*?script=["']([\s\S]*?)["']>[\s\S]*?<\/template>/;
const CONTENT_REGEX = /<template[\s\S]*?>([\s\S]*?)<\/template>/;
```

Both regexes are leftmost-first with lazy quantifiers only, so they are
realised by first-occurrence substring searches:
* `CONTENT_REGEX` captures the text between the first `>` following the
  first `<template` and the first `</template>` after that.
* `SCRIPT_REGEX` scans, after the first `<template ` (with a space), the
  occurrences of `script=` in order for one directly followed by a quote
  character, and captures up to the first `">` or `'>` after it, provided
  a `</template>` follows. -/

/-- First occurrence of `pat` in `s` (both character lists): the part
before it and the part after it. -/
def breakAtSub : List Char → List Char → Option (List Char × List Char)
  | [], _ => none
  | c :: rest, pat =>
    if List.isPrefixOf pat (c :: rest) then some ([], (c :: rest).drop pat.length)
    else
      match breakAtSub rest pat with
      | some (pre, post) => some (c :: pre, post)
      | none => none

/-- String version of `breakAtSub`. -/
def splitOnceStr (s pat : String) : Option (String × String) :=
  match breakAtSub s.data pat.data with
  | some (pre, post) => some (String.mk pre, String.mk post)
  | none => none

/-- The `content.match(CONTENT_REGEX)`: the captured group (inner template
content), when the regex matches. -/
def contentMatch (s : String) : Option String :=
  match splitOnceStr s "<template" with
  | none => none
  | some (_, r1) =>
    match splitOnceStr r1 ">" with
    | none => none
    | some (_, r2) =>
      match splitOnceStr r2 "</template>" with
      | none => none
      | some (cap, _) => some cap

/-- Earlier of the two closing delimiters `">` and `'>` (the regex
accepts either quote before the `>`). -/
def firstCloseQuote (s : String) : Option (String × String) :=
  match splitOnceStr s "\">", splitOnceStr s "'>" with
  | none, none => none
  | some r, none => some r
  | none, some r => some r
  | some (a1, b1), some (a2, b2) =>
    if a1.length ≤ a2.length then some (a1, b1) else some (a2, b2)

/-- Scan (after the first `<template `) for a `script=` occurrence
followed directly by a quote; capture up to the first quote-`>` close,
requiring a `</template>` afterwards.  Fuelled recursion over the
remaining text. -/
def scriptSearch : Nat → String → Option String
  | 0, _ => none
  | fuel + 1, r1 =>
    match splitOnceStr r1 "script=" with
    | none => none
    | some (_, r2) =>
      if r2.data.head? = some '"' ∨ r2.data.head? = some '\'' then
        match firstCloseQuote (String.mk (r2.data.drop 1)) with
        | some (cap, rest) =>
          if (splitOnceStr rest "</template>").isSome then some cap else none
        | none => none
      else scriptSearch fuel r2

/-- The `content.match(SCRIPT_REGEX)`: the captured script reference. -/
def scriptMatch (s : String) : Option String :=
  match splitOnceStr s "<template " with
  | none => none
  | some (_, r1) => scriptSearch (r1.length + 1) r1

/-- The `Route.divideContentAndScript(content)`: stores the script reference
when `SCRIPT_REGEX` matched, and returns the captured template content
(or the whole response when `CONTENT_REGEX` did not match). -/
def Route.divideContentAndScript (r : Route) (content : String) : Route × String :=
  let r' := match scriptMatch content with
            | some sc => { r with _script := some sc }
            | none => r
  match contentMatch content with
  | some inner => (r', inner)
  | none => (r', content)

/-! ## fetchRoute

```js
async fetchRoute() {
    if (this._content) return this._content;
    const response = await fetch(`/app/pages/${this.view}/index.html`)
        .then(response => response.text())
        .catch(error => { throw new RouterRouteError(error); });
    if (!response) return 'An error occurred';
    this._content = this.divideContentAndScript(response);
    return this._content;
}
```

The memo check is JS truthiness, so a cached *empty* string does not
count as cached.  An empty successful response returns the fallback
string and caches nothing.  The view loader (the `fetch`) is an external
collaborator; one call of `fetchRoute` consults it at most once, and we
count how many times it does. -/

/-- One response of the view loader: the fetched text, or a transport
failure. -/
inductive LoaderResp where
  | ok (body : String)
  | err (e : String)
deriving DecidableEq, Repr

/-- JS truthiness of `this._content` (`undefined` and `""` are falsy). -/
def truthyOpt : Option String → Bool
  | none => false
  | some s => s ≠ ""

/-- The `Route.fetchRoute()` under a given loader response: result
(`Except` = promise rejection), updated route, and the number of loader
fetches issued by this call (0 on a memo hit, 1 otherwise). -/
def Route.fetchRoute (r : Route) (resp : LoaderResp) :
    Except String String × Route × Nat :=
  if truthyOpt r._content then (.ok (r._content.getD ""), r, 0)
  else
    match resp with
    | .err e => (.error ("RouterRouteError: " ++ e), r, 1)
    | .ok body =>
      if body = "" then (.ok "An error occurred", r, 1)
      else
        let (r', inner) := r.divideContentAndScript body
        (.ok inner, { r' with _content := some inner }, 1)

/-- Two successive `fetchRoute` calls (second call sees the route state
left by the first): total number of loader fetches issued. -/
def fetchTwiceCount (r : Route) (resp1 resp2 : LoaderResp) : Nat :=
  let out1 := r.fetchRoute resp1
  let out2 := out1.2.1.fetchRoute resp2
  out1.2.2 + out2.2.2

/-! ## fetchScript

```js
async fetchScript() {
    const result = import(`/app/pages/${this.view}/${this._script}`);
    this.emit("scriptLoaded")
    return result;
}
```

There is no memo field consulted or written: every call issues a fresh
`import()` of the same specifier and emits `scriptLoaded`. -/

/-- The import specifier used by `fetchScript` (template-literal
interpolation turns an `undefined` `_script` into the text
`undefined`). -/
def Route.importSpecifier (r : Route) : String :=
  "/app/pages/" ++ r.view ++ "/" ++ (r._script.getD "undefined")

/-- Observable behaviour of one `fetchScript()` call: the specifiers of
the `import()` calls it issues and the number of `scriptLoaded`
emissions. -/
structure ScriptCallOut where
  issuedImports : List String
  scriptLoadedEmits : Nat
deriving DecidableEq, Repr

/-- The `Route.fetchScript()`: issues exactly one `import()` of the route's
specifier and emits `scriptLoaded` once; the route state is untouched. -/
def Route.fetchScript (r : Route) : ScriptCallOut :=
  { issuedImports := [r.importSpecifier], scriptLoadedEmits := 1 }

/-- Run of `n` successive `fetchScript()` calls: concatenation of the
issued import specifiers. -/
def fetchScriptCalls (r : Route) : Nat → List String
  | 0 => []
  | n + 1 => (r.fetchScript).issuedImports ++ fetchScriptCalls r n

example : splitPath "/a//b/" = ["a", "b"] := by decide
example : splitPath "/" = [] := by decide
example :
    (Route.matchRoute { path := .segs ["a", ":x"], view := "v" } ["a", "7"] true).1 = true := by
  decide
example :
    (Route.matchRoute { path := .segs ["a", ":x"], view := "v" } ["a", "7"] true).2.1.params
      = some [("x", "7")] := by decide
example :
    (Route.matchRoute { path := .segs ["a", ":x"], view := "v" } ["b", "7"] true).2.1.params
      = some [] := by decide

/-! ## Router resolution and location handling

```js
findRoute(path, routeChange = false) {
    const pathArray = path.split('/').filter(Boolean);
    return this.routes.find(route => route.match(pathArray, routeChange)) || this.notFoundRoute;
}

async handleLocation() {
    const path = window.location.pathname;
    const route = this.findRoute(path, true);
    if (route === this.currentRoute) return;
    await this.currentRoute?.unmount();
    const html = await route.fetchRoute();
    this.wrapper.innerHTML = html;
    this.onDomChanged();
    this.currentRoute = route;
    this.emit("routeChanged");
    route.mounted();
}
```

Routes are identified by their index in `Router.routes`; JS object
identity (`route === this.currentRoute`) becomes index equality, and
`this.notFoundRoute` is the route at the stored index (the constructor
finds it inside `routes`).  `Array.prototype.find` calls `match` on each
route in order until the first `true`, so every tried route is mutated
by the `changeParams` commit and emits `paramsChanged`. -/

/-- The `routes.find(route => route.match(pathArray, routeChange))`, pure
view: the first route whose match succeeds (the match result only
depends on the immutable pattern and the input). -/
def findFirstMatch (routes : List Route) (segs : List String) (rc : Bool) :
    Option Route :=
  routes.find? (fun r => (r.matchRoute segs rc).1)

/-- The `Router.findRoute(path, routeChange)`: split the path and return the
first matching route, falling back to the NotFound route. -/
def Router.findRoute (routes : List Route) (nf : Route) (path : String)
    (routeChange : Bool) : Route :=
  (findFirstMatch routes (splitPath path) routeChange).getD nf

/-- Observable actions of one `handleLocation()` call (indices refer to
positions in `Router.routes`). -/
inductive HEff where
  | paramsChangedE (i : Nat)
  | unmountE (i : Nat)
  | fetchRouteE (i : Nat)
  | setWrapperHtmlE
  | domChangedE
  | routeChangedE
  | mountE (i : Nat)
deriving DecidableEq, Repr

/-- The `routes.find(...)` loop of `findRoute`, with the state effects:
each tried route's `match(segs, rc)` runs (committing params and
emitting `paramsChanged` when `rc`), stopping at the first success.
Returns the found index, the updated route list, and the emitted
events. -/
def findRouteScan : List Route → List String → Bool → Nat →
    Option Nat × List Route × List HEff
  | [], _, _, _ => (none, [], [])
  | r :: rs, segs, rc, i =>
    let m := r.matchRoute segs rc
    let eff : List HEff := if m.2.2 then [.paramsChangedE i] else []
    if m.1 then (some i, m.2.1 :: rs, eff)
    else
      let rest := findRouteScan rs segs rc (i + 1)
      (rest.1, m.2.1 :: rest.2.1, eff ++ rest.2.2)

/-- The mutable state of a `Router` instance relevant to location
handling. -/
structure RouterSt where
  routes : List Route
  nfIdx : Nat
  currentRouteIdx : Option Nat := none
  wrapperHtml : String := ""
deriving DecidableEq, Repr

/-- The `Router.handleLocation()` for the current location `path`, with the
view loader's response for the incoming route supplied as `resp`:
returns the updated state, the actions performed in order, and the
uncaught error when `fetchRoute` rejected. -/
def Router.handleLocation (st : RouterSt) (path : String) (resp : LoaderResp) :
    RouterSt × List HEff × Option String :=
  let (found, routes', effs) := findRouteScan st.routes (splitPath path) true 0
  let routeIdx := found.getD st.nfIdx
  let st1 : RouterSt := { st with routes := routes' }
  if st1.currentRouteIdx = some routeIdx then (st1, effs, none)
  else
    let unmountEffs : List HEff :=
      match st1.currentRouteIdx with
      | some c => [.unmountE c]
      | none => []
    match st1.routes.get? routeIdx with
    | none => (st1, effs ++ unmountEffs, some "TypeError")
    | some target =>
      let (out, target', _) := target.fetchRoute resp
      let st2 : RouterSt := { st1 with routes := st1.routes.set routeIdx target' }
      match out with
      | .error e => (st2, effs ++ unmountEffs ++ [.fetchRouteE routeIdx], some e)
      | .ok html =>
        ({ st2 with wrapperHtml := html, currentRouteIdx := some routeIdx },
         effs ++ unmountEffs ++
           [.fetchRouteE routeIdx, .setWrapperHtmlE, .domChangedE,
            .routeChangedE, .mountE routeIdx],
         none)

example :
    contentMatch "x<template script='index.js'>hello</template>y" = some "hello" := by decide
example :
    scriptMatch "x<template script='index.js'>hello</template>y" = some "index.js" := by decide
example : scriptMatch "<template>hello</template>" = none := by decide
example : contentMatch "plain" = none := by decide

/-! ## Timed model of the unmount / fetch ordering

```js
runIfExist(method) {
    if (method) method();
}

async unmount() {
    this.off('paramsChanged', this._paramsListenerId);
    if (this._script) await this.fetchScript().then(module => this.runIfExist(module.unmount));
}

// in handleLocation:
await this.currentRoute?.unmount();
const html = await route.fetchRoute();
```

Single-threaded task-based asynchrony is modelled denotationally by
completion times (Nat ticks).  A page script's `unmount` export, invoked
at time `t`, returns control immediately (at `t`) and its teardown task
completes at `t + dur`; `dur = 0` models a synchronous teardown.
`runIfExist` calls the method but discards its return value, so the
promise a teardown returns is never chained into `unmount()`'s own
promise. -/

namespace Timed

/-- The page script module as far as `unmount()` is concerned: `none` =
no `unmount` export; `some dur` = an `unmount` export whose returned
teardown task takes `dur` ticks. -/
structure ScriptModule where
  unmountDur : Option Nat
deriving DecidableEq, Repr

/-- The `runIfExist(method)` invoked at time `t`: if the method exists it is
called (its task will complete at `t + dur`), and `runIfExist` returns
at `t` without awaiting that task.  Result: (time `runIfExist` returns,
completion time of the started teardown task, if any). -/
def runIfExist (t : Nat) (method : Option Nat) : Nat × Option Nat :=
  match method with
  | none => (t, none)
  | some dur => (t, some (t + dur))

/-- The `Route.unmount()` started at time `t` for a route whose script
module resolves after `importDur` ticks: (time the `unmount()` promise
resolves, completion time of the page script's teardown task, if
any).  Without a script the promise resolves immediately. -/
def unmountTimed (hasScript : Bool) (mod : ScriptModule) (importDur : Nat)
    (t : Nat) : Nat × Option Nat :=
  if hasScript then
    let tImport := t + importDur
    runIfExist tImport mod.unmountDur
  else (t, none)

/-- The `await this.currentRoute?.unmount(); const html = await
route.fetchRoute();` fragment of `handleLocation`, with a previous
current route present and a different resolved route: returns (time the
new route's fetch begins, completion time of the outgoing teardown task,
if any).  The fetch begins exactly when the `unmount()` promise
resolves. -/
def handleLocationUnmountPhase (hasScript : Bool) (mod : ScriptModule)
    (importDur : Nat) (t : Nat) : Nat × Option Nat :=
  unmountTimed hasScript mod importDur t

end Timed

/-! ## DOM head model and metadata reconciliation

```js
refreshTitle(head, title) { ... }
refreshMetaAttribute(head, name, content, isProperty = false) { ... }
refreshMeta() { ... }
```

The head is the list of meta tags (in document order, as seen by
`querySelector`) plus the optional title tag.  `getAttribute` returns
`null` for an absent attribute; `setAttribute(k, undefined)` stores the
text `undefined`; `x === y` between `null`/`undefined` and anything else
is false — these JS distinctions are kept explicit below. -/

/-- A `<meta>` element: its key attribute kind (`property` vs `name`),
key value, `content` attribute (`none` = attribute absent) and the
router-ownership marker. -/
structure MetaTag where
  isProp : Bool
  keyVal : String
  content : Option String := none
  dataRouter : Bool := false
deriving DecidableEq, Repr

/-- The document head: optional `<title>` (with its text) and the meta
tags in document order. -/
structure Head where
  titleTag : Option String := none
  metas : List MetaTag := []
deriving DecidableEq, Repr

/-- One DOM mutation performed by the reconciler. -/
inductive DomMut where
  | createTitle
  | setTitle
  | createMeta (isProp : Bool) (key : String)
  | removeMeta (isProp : Bool) (key : String)
  | setMetaContent (isProp : Bool) (key : String)
deriving DecidableEq, Repr

/-- JS strict equality between a `string | null` (an attribute read or
tag text) and a `string | undefined` (a metadata field): true only when
both are strings and equal. -/
def strictEqOpt : Option String → Option String → Bool
  | some a, some b => a = b
  | _, _ => false

/-- The `setAttribute` / `innerHTML` coercion: `undefined` becomes the text
`undefined`. -/
def coerceUndef (c : Option String) : String := c.getD "undefined"

/-- The `Router.refreshTitle(head, title)`: create the title tag when
absent, otherwise rewrite only when `innerHTML === title` fails. -/
def Router.refreshTitle (h : Head) (title : Option String) :
    Head × List DomMut :=
  match h.titleTag with
  | none => ({ h with titleTag := some (coerceUndef title) }, [.createTitle])
  | some cur =>
    if strictEqOpt (some cur) title then (h, [])
    else ({ h with titleTag := some (coerceUndef title) }, [.setTitle])

/-- The `document.querySelector('meta[key=name]')`: index of the first
matching meta tag. -/
def findMetaIdx (h : Head) (isProp : Bool) (key : String) : Option Nat :=
  h.metas.findIdx? (fun t => t.isProp = isProp ∧ t.keyVal = key)

/-- JS truthiness of the `content` argument (`undefined` and `""` are
falsy). -/
def truthyContent : Option String → Bool
  | none => false
  | some s => s ≠ ""

/-- The `Router.refreshMetaAttribute(head, name, content, isProperty)`:
create the tag when absent (then the content comparison against the
fresh tag's `null` always fails, so content — possibly the text
`undefined` — and the `data-router` marker are written); remove the tag
when it exists but `content` is falsy; otherwise rewrite only when the
current content differs. -/
def Router.refreshMetaAttribute (h : Head) (name : String)
    (content : Option String) (isProp : Bool) : Head × List DomMut :=
  match findMetaIdx h isProp name with
  | none =>
    let tag : MetaTag :=
      { isProp := isProp, keyVal := name,
        content := some (coerceUndef content), dataRouter := true }
    ({ h with metas := h.metas ++ [tag] },
     [.createMeta isProp name, .setMetaContent isProp name])
  | some i =>
    if ¬ truthyContent content then
      ({ h with metas := h.metas.eraseIdx i }, [.removeMeta isProp name])
    else
      match h.metas.get? i with
      | none => (h, [])
      | some tag =>
        if strictEqOpt tag.content content then (h, [])
        else
          let tag' : MetaTag :=
            { tag with content := some (coerceUndef content), dataRouter := true }
          ({ h with metas := h.metas.set i tag' },
           [.setMetaContent isProp name])

/-- The `meta` getter's merge:
`{...defaultMeta, ...route.meta, og: {...defaultMeta.og, ...route.meta.og},
twitter: {...}}` — route-level present fields win per sub-object, and
the `og`/`twitter` sub-objects of the result always exist. -/
structure ComputedMeta where
  title : Option String
  description : Option String
  og : OpenGraph
  twitter : TwitterCard
deriving DecidableEq, Repr

/-- Spread-merge of the two `og` objects. -/
def mergeOG (d r : Option OpenGraph) : OpenGraph :=
  let d := d.getD {}
  let r := r.getD {}
  { url := r.url <|> d.url, type := r.type <|> d.type,
    title := r.title <|> d.title, description := r.description <|> d.description,
    image := r.image <|> d.image }

/-- Spread-merge of the two `twitter` objects. -/
def mergeTW (d r : Option TwitterCard) : TwitterCard :=
  let d := d.getD {}
  let r := r.getD {}
  { card := r.card <|> d.card, domain := r.domain <|> d.domain,
    url := r.url <|> d.url, title := r.title <|> d.title,
    description := r.description <|> d.description, image := r.image <|> d.image }

/-- The `Router.meta`: the computed metadata for the current route. -/
def Router.computeMeta (defaultMeta routeMeta : RouteMeta) : ComputedMeta :=
  { title := routeMeta.title <|> defaultMeta.title
    description := routeMeta.description <|> defaultMeta.description
    og := mergeOG defaultMeta.og routeMeta.og
    twitter := mergeTW defaultMeta.twitter routeMeta.twitter }

/-- One step of the `for (const key in meta.og)` / `meta.twitter` loops:
absent fields are skipped (the merged object has no such key), present
fields are reconciled with the attribute kind from the static `META`
table. -/
def refreshFields (h : Head) (fields : List (String × Option String × Bool)) :
    Head × List DomMut :=
  fields.foldl
    (fun acc f =>
      match f.2.1 with
      | none => acc
      | some v =>
        let out := Router.refreshMetaAttribute acc.1 f.1 (some v) f.2.2
        (out.1, acc.2 ++ out.2))
    (h, [])

/-- The `og` field list with `META.og` attribute kinds (all
`property`). -/
def ogFields (og : OpenGraph) : List (String × Option String × Bool) :=
  [("url", og.url, true), ("type", og.type, true), ("title", og.title, true),
   ("description", og.description, true), ("image", og.image, true)]

/-- The `twitter` field list with `META.twitter` attribute kinds
(`name` except `url` and `domain`). -/
def twFields (tw : TwitterCard) : List (String × Option String × Bool) :=
  [("card", tw.card, false), ("domain", tw.domain, true), ("url", tw.url, true),
   ("title", tw.title, false), ("description", tw.description, false),
   ("image", tw.image, false)]

/-- The `Router.refreshMeta()`: title, then `description` (a `name`-keyed
tag), then the `og` and `twitter` loops.  Returns the head and the
mutations performed, in order. -/
def Router.refreshMeta (defaultMeta routeMeta : RouteMeta) (h : Head) :
    Head × List DomMut :=
  let meta := Router.computeMeta defaultMeta routeMeta
  let o1 := Router.refreshTitle h meta.title
  let o2 := Router.refreshMetaAttribute o1.1 "description" meta.description false
  let o3 := refreshFields o2.1 (ogFields meta.og)
  let o4 := refreshFields o3.1 (twFields meta.twitter)
  (o4.1, o1.2 ++ o2.2 ++ o3.2 ++ o4.2)

/-! ## The event bus (`on`/`off`/`emit`)

```js
on(event, callback) {
    if (!this._eventListenners[event]) {
        this._eventListenners[event] = new Map();
    }
    const id = this._currentListenerId++;
    this._eventListenners[event].set(id, callback);
    return id;
}

off(event, id) {
    if (!this._eventListenners[event]) return;
    return this._eventListenners[event].delete(id);
}

emit(event) {
    if (!this._eventListenners[event]) return;
    this._eventListenners[event]?.forEach(listener => {
        try {
            listener(this);
        } catch (error) {
            console.error(error);
        }
    });
}
```

`Route` and `Router` carry the same bus code (`Router.on`/`off`/`emit`
only differ by brace placement), so one model covers both.  A JS `Map`
is an insertion-ordered association list; `set` overwrites in place,
`delete` removes.  Callbacks are opaque values of type `α`; for the
error-isolation claim `α` is instantiated with the outcome the callback
produces when invoked. -/

/-- The `Map.prototype.set` on an insertion-ordered id→callback map. -/
def mapSet {α : Type} : List (Nat × α) → Nat → α → List (Nat × α)
  | [], id, cb => [(id, cb)]
  | (id', cb') :: rest, id, cb =>
    if id' = id then (id, cb) :: rest else (id', cb') :: mapSet rest id cb

/-- The `Map.prototype.delete`: the removal result and the new map. -/
def mapDelete {α : Type} : List (Nat × α) → Nat → Bool × List (Nat × α)
  | [], _ => (false, [])
  | (id', cb') :: rest, id =>
    if id' = id then (true, rest)
    else
      let out := mapDelete rest id
      (out.1, (id', cb') :: out.2)

/-- The listener storage of one instance: event name → id-keyed map,
plus the shared `_currentListenerId` counter. -/
structure Bus (α : Type) where
  listeners : List (String × List (Nat × α)) := []
  currentListenerId : Nat := 0
deriving Repr

/-- Property read on the listener record: the map stored under an event
name (`none` = no map created yet). -/
def eventMapOf {α : Type} (ls : List (String × List (Nat × α))) (event : String) :
    Option (List (Nat × α)) :=
  (ls.find? (fun p => p.1 = event)).map (fun p => p.2)

/-- The `this._eventListenners[event]` (`none` = no map created yet). -/
def Bus.eventMap {α : Type} (b : Bus α) (event : String) :
    Option (List (Nat × α)) :=
  eventMapOf b.listeners event

/-- Replace (or create) the map stored under `event`. -/
def putEventMap {α : Type} : List (String × List (Nat × α)) → String →
    List (Nat × α) → List (String × List (Nat × α))
  | [], ev, m => [(ev, m)]
  | (ev', m') :: rest, ev, m =>
    if ev' = ev then (ev, m) :: rest else (ev', m') :: putEventMap rest ev m

/-- The `on(event, callback)`: initialise the event's map when missing, take
the next id from the shared counter, store the callback, return the
id. -/
def Bus.on {α : Type} (b : Bus α) (event : String) (cb : α) : Nat × Bus α :=
  let m := (b.eventMap event).getD []
  let id := b.currentListenerId
  (id, { listeners := putEventMap b.listeners event (mapSet m id cb),
         currentListenerId := id + 1 })

/-- The `off(event, id)`: `undefined` when the event has no map, else the
`Map.delete` result. -/
def Bus.off {α : Type} (b : Bus α) (event : String) (id : Nat) :
    Option Bool × Bus α :=
  match b.eventMap event with
  | none => (none, b)
  | some m =>
    let out := mapDelete m id
    (some out.1, { b with listeners := putEventMap b.listeners event out.2 })

/-- Outcome of invoking one subscriber: normal return or a thrown
exception with its message. -/
inductive CbOutcome where
  | ok
  | throws (msg : String)
deriving DecidableEq, Repr

/-- One iteration of the `forEach` body of `emit`: the callback runs
inside `try { listener(this) } catch (error) { console.error(error) }`,
so its id is recorded as invoked either way and a thrown message is only
logged. -/
def emitStep (acc : List Nat × List String) (e : Nat × CbOutcome) :
    List Nat × List String :=
  match e.2 with
  | .ok => (acc.1 ++ [e.1], acc.2)
  | .throws msg => (acc.1 ++ [e.1], acc.2 ++ [msg])

/-- The `emit(event)`: iterate the event's map in insertion order, invoking
every callback inside `try { ... } catch (error) { console.error(error) }`.
Returns the ids invoked (in order) and the logged errors; the function
is total — no exception escapes to the caller. -/
def Bus.emit (b : Bus CbOutcome) (event : String) : List Nat × List String :=
  match b.eventMap event with
  | none => ([], [])
  | some m => m.foldl emitStep ([], [])

/-- The message a callback outcome throws, if any. -/
def thrownMsg (e : Nat × CbOutcome) : Option String :=
  match e.2 with
  | .ok => none
  | .throws msg => some msg

/-- An operation sequence against one instance's bus. -/
inductive BusOp (α : Type) where
  | subscribe (event : String) (cb : α)
  | unsubscribe (event : String) (id : Nat)

/-- Run a sequence of `on`/`off` calls, collecting the ids returned by
the `on` calls in order. -/
def runBus {α : Type} : Bus α → List (BusOp α) → Bus α × List Nat
  | b, [] => (b, [])
  | b, .subscribe ev cb :: ops =>
    let stepOut := b.on ev cb
    let rest := runBus stepOut.2 ops
    (rest.1, stepOut.1 :: rest.2)
  | b, .unsubscribe ev id :: ops => runBus (b.off ev id).2 ops

/-- The `on` operations of an operation sequence. -/
def numOns {α : Type} : List (BusOp α) → Nat
  | [] => 0
  | .subscribe _ _ :: t => numOns t + 1
  | .unsubscribe _ _ :: t => numOns t

/-- All ids stored in a listener record, across every event. -/
def flatIds {α : Type} (ls : List (String × List (Nat × α))) : List Nat :=
  ls.flatMap (fun p => p.2.map (fun e => e.1))

/-- All ids currently subscribed on the instance, across every event. -/
def Bus.liveIds {α : Type} (b : Bus α) : List Nat :=
  flatIds b.listeners

/-! ## Lemmas about `matchScan` -/

theorem matchScan_fst_iff (ps : List String) (is : List String)
    (acc : List (String × String)) (h : ps.length = is.length) :
    (matchScan ps is acc).1 = true ↔
      ∀ pr ∈ ps.zip is, startsWithColon pr.1 = true ∨ pr.1 = pr.2 := by
  induction ps generalizing is acc with
  | nil =>
    simp [matchScan]
  | cons p ps ih =>
    cases is with
    | nil => simp at h
    | cons i is =>
      have h' : ps.length = is.length := by simpa using h
      by_cases hc : startsWithColon p
      · simp [matchScan, hc, ih is _ h', List.forall_mem_cons]
      · by_cases he : p = i
        · subst he
          simp [matchScan, hc, ih is _ h', List.forall_mem_cons]
        · simp [matchScan, hc, he, List.forall_mem_cons]

/-- Position form of the `every` loop condition. -/
theorem matchScan_fst_iff_getElem (ps is : List String) (acc : List (String × String))
    (h : ps.length = is.length) :
    (matchScan ps is acc).1 = true ↔
      ∀ (i : Nat) (h1 : i < ps.length) (h2 : i < is.length),
        startsWithColon ps[i] = false → ps[i] = is[i] := by
  rw [matchScan_fst_iff ps is acc h]
  constructor
  · intro hall i h1 h2 hcol
    have hz : i < (ps.zip is).length := by
      rw [List.length_zip]; omega
    have hm : (ps.zip is)[i] ∈ ps.zip is := List.getElem_mem hz
    have := hall _ hm
    rw [List.getElem_zip] at this
    rcases this with hcol' | heq
    · rw [hcol] at hcol'; exact absurd hcol' (by simp)
    · exact heq
  · intro hall pr hpr
    rcases List.mem_iff_getElem.1 hpr with ⟨i, hz, rfl⟩
    have h1 : i < ps.length := by rw [List.length_zip] at hz; omega
    have h2 : i < is.length := by rw [List.length_zip] at hz; omega
    rw [List.getElem_zip]
    by_cases hcol : startsWithColon ps[i]
    · exact Or.inl hcol
    · exact Or.inr (hall i h1 h2 (by simpa using hcol))

/-- One step of the parameter-binding fold (the body of the `every`
loop, restricted to its effect on the local `params` object). -/
def bindStep (m : List (String × String)) (pr : String × String) :
    List (String × String) :=
  if startsWithColon pr.1 then setKey m (sliceOne pr.1) pr.2 else m

/-- On a successful scan the resulting `params` object is the full fold
of the bindings over the zipped segments. -/
theorem matchScan_snd_of_true (ps : List String) (is : List String)
    (acc : List (String × String)) (h : ps.length = is.length)
    (htrue : (matchScan ps is acc).1 = true) :
    (matchScan ps is acc).2 = (ps.zip is).foldl bindStep acc := by
  induction ps generalizing is acc with
  | nil =>
    simp [matchScan]
  | cons p ps ih =>
    cases is with
    | nil => simp at h
    | cons i is =>
      have h' : ps.length = is.length := by simpa using h
      by_cases hc : startsWithColon p
      · rw [List.zip_cons_cons, List.foldl_cons]
        have hb : bindStep acc (p, i) = setKey acc (sliceOne p) i := by
          simp [bindStep, hc]
        rw [hb]
        simp only [matchScan, hc, if_true] at htrue ⊢
        exact ih is _ h' htrue
      · by_cases he : p = i
        · subst he
          rw [List.zip_cons_cons, List.foldl_cons]
          have hb : bindStep acc (p, p) = acc := by simp [bindStep, hc]
          rw [hb]
          simp only [matchScan, hc, Bool.false_eq_true, if_false, if_true] at htrue ⊢
          exact ih is _ h' htrue
        · simp [matchScan, hc, he] at htrue

theorem lookupKey_setKey_self (m : List (String × String)) (k v : String) :
    lookupKey (setKey m k v) k = some v := by
  induction m with
  | nil => simp [setKey, lookupKey]
  | cons e rest ih =>
    obtain ⟨e1, e2⟩ := e
    by_cases he : e1 = k
    · subst he
      simp [setKey, lookupKey]
    · simp [setKey, lookupKey, he, ih]

theorem lookupKey_setKey_other (m : List (String × String)) (k k' v : String)
    (h : k' ≠ k) : lookupKey (setKey m k v) k' = lookupKey m k' := by
  induction m with
  | nil => simp [setKey, lookupKey, Ne.symm h]
  | cons e rest ih =>
    obtain ⟨e1, e2⟩ := e
    by_cases he : e1 = k
    · subst he
      simp [setKey, lookupKey, Ne.symm h]
    · simp [setKey, lookupKey, he, ih]

/-- The binding fold leaves keys alone that none of its parameter
segments claim. -/
theorem lookupKey_foldl_bindStep_untouched (l : List (String × String)) :
    ∀ (acc : List (String × String)) (k : String),
      (∀ pr ∈ l, startsWithColon pr.1 = true → sliceOne pr.1 ≠ k) →
      lookupKey (l.foldl bindStep acc) k = lookupKey acc k := by
  induction l with
  | nil => intro acc k _; rfl
  | cons pr rest ih =>
    intro acc k hnone
    rw [List.foldl_cons]
    rw [ih _ k (fun q hq => hnone q (List.mem_cons_of_mem _ hq))]
    by_cases hc : startsWithColon pr.1
    · have hne : sliceOne pr.1 ≠ k := hnone pr (List.mem_cons_self _ _) hc
      show lookupKey (bindStep acc pr) k = lookupKey acc k
      rw [bindStep, if_pos hc]
      exact lookupKey_setKey_other _ _ _ _ (Ne.symm hne)
    · show lookupKey (bindStep acc pr) k = lookupKey acc k
      rw [bindStep, if_neg (by simpa using hc)]

/-- After the binding fold, a parameter whose name is not claimed again
by any later parameter segment maps to its own input segment. -/
theorem lookupKey_foldl_bindStep (ps : List String) :
    ∀ (is : List String) (i : Nat) (h1 : i < ps.length) (h2 : i < is.length)
      (acc : List (String × String)),
      startsWithColon ps[i] = true →
      (∀ (j : Nat) (hj : j < ps.length), i < j →
        startsWithColon ps[j] = true → sliceOne ps[j] ≠ sliceOne ps[i]) →
      lookupKey ((ps.zip is).foldl bindStep acc) (sliceOne ps[i]) = some is[i] := by
  induction ps with
  | nil => intro is i h1; simp at h1
  | cons p ps ih =>
    intro is i h1 h2 acc hcol hlater
    cases is with
    | nil => simp at h2
    | cons v is =>
      rw [List.zip_cons_cons, List.foldl_cons]
      cases i with
      | zero =>
        simp only [List.getElem_cons_zero] at hcol ⊢
        have hstep : bindStep acc (p, v) = setKey acc (sliceOne p) v := by
          simp [bindStep, hcol]
        rw [hstep]
        rw [lookupKey_foldl_bindStep_untouched _ _ _ ?hun]
        · exact lookupKey_setKey_self _ _ _
        case hun =>
          intro pr hpr hprc
          rcases List.mem_iff_getElem.1 hpr with ⟨j, hjz, rfl⟩
          have hj1 : j < ps.length := by rw [List.length_zip] at hjz; omega
          have hj2 : j < is.length := by rw [List.length_zip] at hjz; omega
          rw [List.getElem_zip] at hprc ⊢
          have := hlater (j + 1) (by simpa using Nat.succ_lt_succ hj1)
            (Nat.succ_pos j) (by simpa using hprc)
          simpa using this
      | succ i' =>
        simp only [List.getElem_cons_succ] at hcol ⊢
        have h1' : i' < ps.length := by simpa using h1
        have h2' : i' < is.length := by simpa using h2
        refine ih is i' h1' h2' (bindStep acc (p, v)) hcol ?_
        intro j hj hij hjc
        have := hlater (j + 1) (by simpa using Nat.succ_lt_succ hj)
          (by omega) (by simpa using hjc)
        simpa using this

/-! ## Generic first-match lemma for `Array.prototype.find` -/

theorem find_first {α : Type} (p : α → Bool) (l : List α) (i : Nat)
    (h : i < l.length) (hp : p l[i] = true)
    (hfirst : ∀ (j : Nat) (hj : j < l.length), j < i → p l[j] = false) :
    l.find? p = some l[i] := by
  induction l generalizing i with
  | nil => simp at h
  | cons a l ih =>
    cases i with
    | zero =>
      simp only [List.getElem_cons_zero] at hp ⊢
      simp [List.find?, hp]
    | succ i' =>
      have ha : p a = false := by
        have := hfirst 0 (by simp) (Nat.succ_pos i')
        simpa using this
      have h' : i' < l.length := by simpa using h
      simp only [List.getElem_cons_succ] at hp ⊢
      rw [List.find?_cons_of_neg _ (by simp [ha])]
      exact ih i' h' hp (fun j hj hji => by
        have := hfirst (j + 1) (by simpa using Nat.succ_lt_succ hj)
          (Nat.succ_lt_succ hji)
        simpa using this)

/-! ## Claim theorems -/

/-- C1: `Route.match` returns true iff the pattern is not the `404`
sentinel, the pattern and the input have the same number of segments,
and every non-parameter segment of the pattern equals the input segment
at the same index; and, on a successful committing match, each `:name`
parameter segment (whose name is not claimed again by a later parameter
segment) binds `name` to the input segment at its position. -/
theorem matchRoute_spec (r : Route) (input : List String) (cp : Bool) :
    ((r.matchRoute input cp).1 = true ↔
      ∃ ps, r.path = RPath.segs ps ∧ ps.length = input.length ∧
        ∀ (i : Nat) (h1 : i < ps.length) (h2 : i < input.length),
          startsWithColon ps[i] = false → ps[i] = input[i])
    ∧ (∀ ps, r.path = RPath.segs ps →
        (r.matchRoute input true).1 = true →
        ∀ (i : Nat) (h1 : i < ps.length) (h2 : i < input.length),
          startsWithColon ps[i] = true →
          (∀ (j : Nat) (hj : j < ps.length), i < j →
            startsWithColon ps[j] = true → sliceOne ps[j] ≠ sliceOne ps[i]) →
          ∃ prms, (r.matchRoute input true).2.1.params = some prms ∧
            lookupKey prms (sliceOne ps[i]) = some input[i]) := by
  constructor
  · cases hpath : r.path with
    | notFound =>
      simp only [Route.matchRoute, hpath]
      constructor
      · intro hfalse; exact absurd hfalse (by simp)
      · rintro ⟨ps, hps, -⟩; exact absurd hps (by simp)
    | segs ps =>
      by_cases hlen : ps.length = input.length
      · have hres : (r.matchRoute input cp).1 = (matchScan ps input []).1 := by
          simp only [Route.matchRoute, hpath, hlen, ne_eq, not_true_eq_false, if_false]
          cases cp <;> simp
        rw [hres, matchScan_fst_iff_getElem ps input [] hlen]
        constructor
        · intro hall
          exact ⟨ps, rfl, hlen, hall⟩
        · rintro ⟨ps', hps', hlen', hall⟩
          have hpp : ps = ps' := by injection hps'
          subst hpp
          exact hall
      · simp only [Route.matchRoute, hpath, ne_eq, hlen, not_false_eq_true, if_true]
        constructor
        · intro hfalse; exact absurd hfalse (by simp)
        · rintro ⟨ps', hps', hlen', -⟩
          have hpp : ps = ps' := by injection hps'
          subst hpp
          exact absurd hlen' hlen
  · intro ps hpath htrue i h1 h2 hcol hlater
    have hlen : ps.length = input.length := by
      by_contra hlen
      simp [Route.matchRoute, hpath, hlen] at htrue
    have hres : (r.matchRoute input true)
        = ((matchScan ps input []).1,
           { r with params := some (matchScan ps input []).2 }, true) := by
      simp [Route.matchRoute, hpath, hlen]
    refine ⟨(matchScan ps input []).2, by rw [hres], ?_⟩
    have htrue' : (matchScan ps input []).1 = true := by
      rw [hres] at htrue; exact htrue
    rw [matchScan_snd_of_true ps input [] hlen htrue']
    exact lookupKey_foldl_bindStep ps input i h1 h2 [] hcol hlater

/-- Witness for C1: the route `/a/:x` against input `["a", "7"]` — the
match succeeds and binds `x` to `7`. -/
theorem matchRoute_spec_witness :
    ((Route.matchRoute { path := .segs ["a", ":x"], view := "v" } ["a", "7"] true).1 = true)
    ∧ (∃ prms,
        (Route.matchRoute { path := .segs ["a", ":x"], view := "v" } ["a", "7"] true).2.1.params
          = some prms ∧ lookupKey prms (sliceOne ":x") = some "7") := by
  refine ⟨by decide, ?_⟩
  exact (matchRoute_spec { path := .segs ["a", ":x"], view := "v" } ["a", "7"] true).2
    ["a", ":x"] rfl (by decide) 1 (by decide) (by decide) (by decide)
    (fun j hj hij _ => by exfalso; simp at hj; omega)

/-- C2: `Router.findRoute` splits the path into its non-empty
`/`-delimited segments and returns the first route, in insertion order,
whose match on those segments succeeds; when no route matches it returns
the NotFound route. -/
theorem findRoute_spec (routes : List Route) (nf : Route) (path : String)
    (rc : Bool) :
    (∀ s ∈ splitPath path, s ≠ "")
    ∧ ((∀ r ∈ routes, (r.matchRoute (splitPath path) rc).1 = false) →
        Router.findRoute routes nf path rc = nf)
    ∧ (∀ (i : Nat) (h : i < routes.length),
        (routes[i].matchRoute (splitPath path) rc).1 = true →
        (∀ (j : Nat) (hj : j < routes.length), j < i →
          (routes[j].matchRoute (splitPath path) rc).1 = false) →
        Router.findRoute routes nf path rc = routes[i]) := by
  refine ⟨?_, ?_, ?_⟩
  · intro s hs
    simp only [splitPath] at hs
    exact of_decide_eq_true (List.mem_filter.mp hs).2
  · intro hall
    have : findFirstMatch routes (splitPath path) rc = none :=
      List.find?_eq_none.2 (fun r hr => by simp [hall r hr])
    simp [Router.findRoute, this]
  · intro i h htrue hfirst
    have : findFirstMatch routes (splitPath path) rc = some routes[i] :=
      find_first _ routes i h htrue hfirst
    simp [Router.findRoute, this]

/-- The scenario home route `/`. -/
def c2home : Route := { path := .segs [], view := "home" }

/-- The scenario detail route `/:id`. -/
def c2app : Route := { path := .segs [":id"], view := "app" }

/-- The scenario NotFound route. -/
def c2nf : Route := { path := .notFound, view := "nf" }

/-- The scenario route table `[/ , /:id , 404]`. -/
def c2routes : List Route := [c2home, c2app, c2nf]

/-- Witness for C2: with routes `[/ , /:id , 404]`, the path `/42`
resolves to the `/:id` route, and an unmatched two-segment path falls
back to the NotFound route. -/
theorem findRoute_spec_witness :
    Router.findRoute c2routes c2nf "/42" true = c2app
    ∧ Router.findRoute c2routes c2nf "/a/b" true = c2nf := by
  constructor
  · have h1 : (1 : Nat) < c2routes.length := by decide
    have hres := (findRoute_spec c2routes c2nf "/42" true).2.2 1 h1
      (by show (c2app.matchRoute (splitPath "/42") true).1 = true; decide)
      (fun j hj hji => by
        have hz : j = 0 := by omega
        subst hz
        show (c2home.matchRoute (splitPath "/42") true).1 = false
        decide)
    exact hres.trans (by show c2app = c2app; rfl)
  · exact (findRoute_spec c2routes c2nf "/a/b" true).2.1 (by decide)

/-- C3 (evaluation at the failing input): with a page script whose
`unmount` export returns a one-tick asynchronous teardown task
(`unmountDur = some 1`, instantaneous import, start at time 0), the
fetch of the next route's content begins at time 0 while the outgoing
teardown only completes at time 1 — `runIfExist` discards the promise
the `unmount` export returns, so `await this.currentRoute?.unmount()`
resolves before the teardown is done. -/
theorem unmount_teardown_not_awaited :
    (Timed.handleLocationUnmountPhase true ⟨some 1⟩ 0 0).2 = some 1
    ∧ (Timed.handleLocationUnmountPhase true ⟨some 1⟩ 0 0).1 < 1 := by
  decide

/-- The C4 counterexample route `/a/:x`, with committed params from an
earlier successful match of `/a/v`. -/
def c4route : Route :=
  { path := .segs ["a", ":x"], view := "v", params := some [("x", "v")] }

/-- C4 counterexample: matching `c4route` against `["b", "w"]` with the
navigation flag set returns false, yet overwrites `params` (the
`changeParams` block is not guarded by the match result). -/
theorem match_mutates_params_on_failure :
    ((c4route.matchRoute ["b", "w"] true).1 = false)
    ∧ ((c4route.matchRoute ["b", "w"] true).2.1.params ≠ c4route.params) := by
  decide

/-- C4 amended: a failing match leaves `params` unchanged provided the
navigation flag is false, or the early returns fire (NotFound pattern or
segment-count mismatch); with the flag set and equal segment counts the
failing match still overwrites `params` with the partial bindings. -/
theorem match_preserves_params_when_guarded (r : Route) (input : List String)
    (cp : Bool) (hres : (r.matchRoute input cp).1 = false)
    (hexc : cp = true → ∀ ps, r.path = RPath.segs ps → ps.length ≠ input.length) :
    (r.matchRoute input cp).2.1.params = r.params := by
  cases hpath : r.path with
  | notFound => simp [Route.matchRoute, hpath]
  | segs ps =>
    by_cases hlen : ps.length = input.length
    · cases cp with
      | false => simp [Route.matchRoute, hpath, hlen]
      | true => exact absurd hlen (hexc rfl ps hpath)
    · simp [Route.matchRoute, hpath, hlen]

/-- Witness for the amended C4: a one-segment input against the
two-segment pattern fails on segment count and leaves `params`
untouched. -/
theorem match_preserves_params_when_guarded_witness :
    (c4route.matchRoute ["z"] true).2.1.params = c4route.params :=
  match_preserves_params_when_guarded c4route ["z"] true (by decide)
    (fun _ ps hps => by
      have hpp : ["a", ":x"] = ps := by injection hps
      subst hpp
      decide)

/-- Effects recorded by `findRouteScan` are only `paramsChanged`
emissions. -/
theorem findRouteScan_effects (rs : List Route) (segs : List String) (rc : Bool)
    (i0 : Nat) :
    ∀ e ∈ (findRouteScan rs segs rc i0).2.2, ∃ k, e = HEff.paramsChangedE k := by
  induction rs generalizing i0 with
  | nil => simp [findRouteScan]
  | cons r rs ih =>
    intro e he
    by_cases hres : (r.matchRoute segs rc).1 = true
    · by_cases hem : (r.matchRoute segs rc).2.2 = true
      · simp only [findRouteScan, hres, hem, if_true, List.mem_singleton] at he
        exact ⟨i0, he⟩
      · simp [findRouteScan, hres, hem] at he
    · by_cases hem : (r.matchRoute segs rc).2.2 = true
      · simp only [findRouteScan, hres, hem, if_true, if_false, Bool.false_eq_true,
          List.mem_append, List.mem_singleton] at he
        rcases he with he | he
        · exact ⟨i0, he⟩
        · exact ih (i0 + 1) e he
      · simp only [findRouteScan, hres, hem, if_false, Bool.false_eq_true,
          List.nil_append] at he
        exact ih (i0 + 1) e he

/-- C5: when `handleLocation` resolves to the route that is already
current, it returns right after `findRoute` — the state is unchanged
apart from the params commits of the tried routes, no error is raised,
and the recorded actions contain no unmount, no content fetch, no
wrapper replacement and no mount (only `paramsChanged` emissions from
the resolution itself). -/
theorem handleLocation_shortcircuit (st : RouterSt) (path : String)
    (resp : LoaderResp)
    (hcur : st.currentRouteIdx =
      some ((findRouteScan st.routes (splitPath path) true 0).1.getD st.nfIdx)) :
    Router.handleLocation st path resp =
      ({ st with routes := (findRouteScan st.routes (splitPath path) true 0).2.1 },
       (findRouteScan st.routes (splitPath path) true 0).2.2, none)
    ∧ ∀ e ∈ (Router.handleLocation st path resp).2.1,
        ∃ k, e = HEff.paramsChangedE k := by
  have heq : Router.handleLocation st path resp =
      ({ st with routes := (findRouteScan st.routes (splitPath path) true 0).2.1 },
       (findRouteScan st.routes (splitPath path) true 0).2.2, none) := by
    simp only [Router.handleLocation]
    rw [if_pos hcur]
  refine ⟨heq, ?_⟩
  rw [heq]
  exact findRouteScan_effects st.routes (splitPath path) true 0

/-- The router state for the C5 witness: home route current, location
still `/`. -/
def c5state : RouterSt :=
  { routes := [{ path := .segs [], view := "home" }, { path := .notFound, view := "nf" }],
    nfIdx := 1,
    currentRouteIdx := some 0 }

/-- Witness for C5: re-handling `/` while the `/` route is current
performs only the `paramsChanged` emission of the resolution. -/
theorem handleLocation_shortcircuit_witness :
    Router.handleLocation c5state "/" (.ok "x") =
      ({ c5state with routes :=
          [{ path := .segs [], view := "home", params := some [] },
           { path := .notFound, view := "nf" }] },
       [HEff.paramsChangedE 0], none) :=
  ((handleLocation_shortcircuit c5state "/" (.ok "x") (by decide)).1).trans (by decide)

/-- The C6 counterexample route (fresh cache). -/
def c6route : Route := { path := .segs ["a"], view := "home" }

/-- C6 counterexample: when the loader's successful response is the
empty string, the fallback string is returned and nothing is cached, so
two successive `fetchRoute` calls issue two loader fetches. -/
theorem fetchRoute_refetches_after_empty :
    1 < fetchTwiceCount c6route (.ok "") (.ok "") := by
  decide

/-- C6 amended: two successive `fetchRoute` calls issue at most one
loader fetch and the second call returns the first call's result,
provided the first response is a non-empty body whose divided content is
also non-empty (an empty body, or one dividing to empty cached content,
is not memoized and causes a refetch). -/
theorem fetchRoute_memoized (r : Route) (body : String) (resp2 : LoaderResp)
    (hb : body ≠ "") (hd : (r.divideContentAndScript body).2 ≠ "") :
    fetchTwiceCount r (.ok body) resp2 ≤ 1
    ∧ ((r.fetchRoute (.ok body)).2.1.fetchRoute resp2).1 = (r.fetchRoute (.ok body)).1 := by
  by_cases hc : truthyOpt r._content = true
  · have h1 : r.fetchRoute (.ok body) = (.ok (r._content.getD ""), r, 0) := by
      simp [Route.fetchRoute, hc]
    constructor
    · simp only [fetchTwiceCount]
      rw [h1]
      simp [Route.fetchRoute, hc]
    · rw [h1]
      simp [Route.fetchRoute, hc]
  · rcases hdiv : r.divideContentAndScript body with ⟨r', inner⟩
    have hinner : inner ≠ "" := by rw [hdiv] at hd; exact hd
    have h1 : r.fetchRoute (.ok body) =
        (.ok inner, { r' with _content := some inner }, 1) := by
      simp [Route.fetchRoute, hc, hb, hdiv]
    have hc2 : truthyOpt ({ r' with _content := some inner } : Route)._content = true := by
      simp [truthyOpt, hinner]
    constructor
    · simp only [fetchTwiceCount]
      rw [h1]
      simp [Route.fetchRoute, hc2]
    · rw [h1]
      simp [Route.fetchRoute, hc2]

/-- Witness for the amended C6: a non-empty template response is cached
and the second call serves it without fetching. -/
theorem fetchRoute_memoized_witness :
    fetchTwiceCount c6route (.ok "<template>hi</template>") (.ok "other") ≤ 1
    ∧ ((c6route.fetchRoute (.ok "<template>hi</template>")).2.1.fetchRoute
        (.ok "other")).1 = (c6route.fetchRoute (.ok "<template>hi</template>")).1 :=
  fetchRoute_memoized c6route "<template>hi</template>" (.ok "other")
    (by decide) (by decide)

/-- The C7 counterexample route, with a discovered script reference. -/
def c7route : Route :=
  { path := .segs ["a"], view := "app", _script := some "index.js" }

/-- C7 counterexample: two successive `fetchScript` calls issue two
`import()` calls — `fetchScript` stores no memo and re-issues the import
each time. -/
theorem fetchScript_reimports :
    1 < (fetchScriptCalls c7route 2).length := by
  decide

/-- C7 amended: for a route with an associated script reference, each of
`n` successive `fetchScript` calls issues exactly one fresh `import()`,
always of the same specifier (`/app/pages/view/script`), with no
route-level memoization. -/
theorem fetchScript_always_imports (r : Route) (n : Nat)
    (_hscript : r._script.isSome = true) :
    (fetchScriptCalls r n).length = n
    ∧ ∀ s ∈ fetchScriptCalls r n, s = r.importSpecifier := by
  induction n with
  | zero => simp [fetchScriptCalls]
  | succ n ih =>
    refine ⟨?_, ?_⟩
    · simp [fetchScriptCalls, Route.fetchScript, ih.1]
    · intro s hs
      simp only [fetchScriptCalls, Route.fetchScript, List.cons_append,
        List.nil_append, List.mem_cons] at hs
      rcases hs with rfl | hs
      · rfl
      · exact ih.2 s hs

/-- Witness for the amended C7: three calls on the sample route issue
three imports of its specifier. -/
theorem fetchScript_always_imports_witness :
    (fetchScriptCalls c7route 3).length = 3
    ∧ ∀ s ∈ fetchScriptCalls c7route 3, s = c7route.importSpecifier :=
  fetchScript_always_imports c7route 3 (by decide)

/-- C8 (evaluation at the failing input): with both default and route
metadata entirely absent and an initially empty head, the first
`refreshMeta` creates the title and a `description` meta tag (content
coerced to the text `undefined`), and the second call — with identical
computed metadata — rewrites the title and removes the description tag:
the reconciliation is not idempotent for absent fields. -/
theorem refreshMeta_second_call_mutates :
    (Router.refreshMeta {} {} (Router.refreshMeta {} {} {}).1).2
      = [DomMut.setTitle, DomMut.removeMeta false "description"] := by
  decide

/-! ## Event-bus lemmas -/

theorem emitStep_foldl (m : List (Nat × CbOutcome)) :
    ∀ acc, m.foldl emitStep acc
      = (acc.1 ++ m.map (fun e => e.1), acc.2 ++ m.filterMap thrownMsg) := by
  induction m with
  | nil => intro acc; simp
  | cons e rest ih =>
    intro acc
    rw [List.foldl_cons, ih]
    rcases e with ⟨id, out⟩
    cases out <;> simp [emitStep, thrownMsg]

/-- C9: dispatching an event invokes every subscribed callback of that
event in insertion order — also the ones after a throwing callback — and
`emit` itself returns normally with the thrown messages merely logged
(the per-callback `try`/`catch` keeps exceptions away from the caller of
`emit`; `Route.emit` and `Router.emit` share this code). -/
theorem emit_isolates_callback_failures (b : Bus CbOutcome) (event : String) :
    (b.emit event).1 = ((b.eventMap event).getD []).map (fun e => e.1)
    ∧ (b.emit event).2 = ((b.eventMap event).getD []).filterMap thrownMsg := by
  cases hm : b.eventMap event with
  | none => simp [Bus.emit, hm]
  | some m => simp [Bus.emit, hm, emitStep_foldl]

theorem on_counter {α : Type} (b : Bus α) (ev : String) (cb : α) :
    (b.on ev cb).1 = b.currentListenerId
    ∧ (b.on ev cb).2.currentListenerId = b.currentListenerId + 1 := by
  simp [Bus.on]

theorem off_counter {α : Type} (b : Bus α) (ev : String) (id : Nat) :
    (b.off ev id).2.currentListenerId = b.currentListenerId := by
  rcases h : b.eventMap ev with - | m <;> simp [Bus.off, h]

/-- The ids returned by the `on` calls of a run are consecutive,
starting at the instance's counter. -/
theorem runBus_ids {α : Type} (ops : List (BusOp α)) :
    ∀ b : Bus α, (runBus b ops).2 = List.range' b.currentListenerId (numOns ops) := by
  induction ops with
  | nil => intro b; simp [runBus, numOns]
  | cons op t ih =>
    intro b
    cases op with
    | subscribe ev cb =>
      simp only [runBus, numOns]
      rw [ih, (on_counter b ev cb).2, (on_counter b ev cb).1, List.range'_succ]
    | unsubscribe ev id =>
      simp only [runBus, numOns]
      rw [ih, off_counter]

theorem mapSet_ids_fresh {α : Type} (m : List (Nat × α)) (id : Nat) (cb : α)
    (h : ∀ e ∈ m, e.1 ≠ id) :
    (mapSet m id cb).map (fun e => e.1) = m.map (fun e => e.1) ++ [id] := by
  induction m with
  | nil => simp [mapSet]
  | cons e rest ih =>
    have hne : e.1 ≠ id := h e (List.mem_cons_self _ _)
    rcases e with ⟨id', cb'⟩
    simp only at hne
    simp [mapSet, hne, ih (fun x hx => h x (List.mem_cons_of_mem _ hx))]

theorem mapDelete_ids_sublist {α : Type} (m : List (Nat × α)) (id : Nat) :
    List.Sublist ((mapDelete m id).2.map (fun e => e.1))
      (m.map (fun e => e.1)) := by
  induction m with
  | nil => simp [mapDelete]
  | cons e rest ih =>
    rcases e with ⟨id', cb'⟩
    by_cases he : id' = id
    · simp only [mapDelete, he, if_true]
      exact List.sublist_cons_self _ _
    · simp only [mapDelete, he, if_false, List.map_cons]
      exact ih.cons₂ id'

/-- Moving a mid-list singleton to the back is a permutation. -/
theorem perm_append_singleton_mid (a b : List Nat) (c : Nat) :
    List.Perm ((a ++ [c]) ++ b) ((a ++ b) ++ [c]) := by
  have h2 : List.Perm (a ++ ([c] ++ b)) (a ++ (b ++ [c])) :=
    List.Perm.append_left a List.perm_append_comm
  rw [List.append_assoc]
  exact h2.trans (by rw [List.append_assoc])

/-- Calling `on` appends the fresh counter id to the instance's live ids, up to
permutation. -/
theorem on_flatIds {α : Type} (ls : List (String × List (Nat × α)))
    (ev : String) (cb : α) (cnt : Nat)
    (hlt : ∀ id ∈ flatIds ls, id < cnt) :
    List.Perm
      (flatIds (putEventMap ls ev (mapSet ((eventMapOf ls ev).getD []) cnt cb)))
      (flatIds ls ++ [cnt]) := by
  induction ls with
  | nil =>
    simp [flatIds, putEventMap, eventMapOf, mapSet]
  | cons p rest ih =>
    rcases p with ⟨ev', m'⟩
    by_cases he : ev' = ev
    · subst he
      have hfind : eventMapOf ((ev', m') :: rest) ev' = some m' := by
        simp [eventMapOf]
      rw [hfind]
      have hfresh : ∀ e ∈ m', e.1 ≠ cnt := by
        intro e hem
        refine Nat.ne_of_lt (hlt e.1 ?_)
        simp only [flatIds, List.flatMap_cons, List.mem_append]
        exact Or.inl (List.mem_map.mpr ⟨e, hem, rfl⟩)
      have hset := mapSet_ids_fresh m' cnt cb hfresh
      simp only [putEventMap, eq_self_iff_true, if_true, Option.getD_some,
        flatIds, List.flatMap_cons]
      rw [hset]
      exact perm_append_singleton_mid _ _ _
    · have hfind : eventMapOf ((ev', m') :: rest) ev = eventMapOf rest ev := by
        unfold eventMapOf
        rw [List.find?_cons_of_neg _ (by simp [he])]
      rw [hfind]
      have hlt' : ∀ id ∈ flatIds rest, id < cnt := by
        intro id hid
        refine hlt id ?_
        simp only [flatIds, List.flatMap_cons, List.mem_append]
        exact Or.inr hid
      have hperm := ih hlt'
      simp only [putEventMap, if_neg he, flatIds, List.flatMap_cons]
      simp only [flatIds] at hperm
      have hres := List.Perm.append_left (m'.map (fun e => e.1)) hperm
      exact hres.trans (by rw [List.append_assoc])

/-- Calling `off` only ever removes ids. -/
theorem off_flatIds {α : Type} (ls : List (String × List (Nat × α)))
    (ev : String) (id : Nat) (m : List (Nat × α))
    (hm : eventMapOf ls ev = some m) :
    List.Sublist (flatIds (putEventMap ls ev (mapDelete m id).2)) (flatIds ls) := by
  induction ls with
  | nil => simp [eventMapOf] at hm
  | cons p rest ih =>
    rcases p with ⟨ev', m'⟩
    by_cases he : ev' = ev
    · subst he
      have hmm : m = m' := by
        simp [eventMapOf] at hm
        exact hm.symm
      subst hmm
      simp only [putEventMap, if_pos rfl]
      simp only [flatIds, List.flatMap_cons]
      exact (mapDelete_ids_sublist m id).append (List.Sublist.refl _)
    · have hfind : eventMapOf rest ev = some m := by
        simp only [eventMapOf, List.find?] at hm ⊢
        rw [show (decide (ev' = ev)) = false by simp [he]] at hm
        exact hm
      simp only [putEventMap, if_neg he]
      simp only [flatIds, List.flatMap_cons]
      exact (List.Sublist.refl _).append (ih hfind)

/-- The allocation invariant: every live id is below the counter, and
live ids are pairwise distinct across all events. -/
def BusInv {α : Type} (b : Bus α) : Prop :=
  (∀ id ∈ b.liveIds, id < b.currentListenerId) ∧ b.liveIds.Nodup

theorem busInv_on {α : Type} (b : Bus α) (ev : String) (cb : α)
    (h : BusInv b) : BusInv (b.on ev cb).2 := by
  obtain ⟨hlt, hnd⟩ := h
  have hperm := on_flatIds b.listeners ev cb b.currentListenerId hlt
  have hlive : (b.on ev cb).2.liveIds
      = flatIds (putEventMap b.listeners ev
          (mapSet ((eventMapOf b.listeners ev).getD []) b.currentListenerId cb)) := rfl
  constructor
  · intro id hid
    rw [(on_counter b ev cb).2]
    rw [hlive] at hid
    have hmem : id ∈ flatIds b.listeners ++ [b.currentListenerId] := hperm.subset hid
    rcases List.mem_append.mp hmem with hmem | hmem
    · exact Nat.lt_succ_of_lt (hlt id hmem)
    · have : id = b.currentListenerId := by simpa using hmem
      omega
  · rw [hlive]
    refine (hperm.nodup_iff).mpr ?_
    have hnd' : (flatIds b.listeners).Nodup := hnd
    have hnotin : b.currentListenerId ∉ flatIds b.listeners := fun hin =>
      Nat.lt_irrefl _ (hlt _ hin)
    simp [List.nodup_append, hnd', hnotin]

theorem busInv_off {α : Type} (b : Bus α) (ev : String) (id : Nat)
    (h : BusInv b) : BusInv (b.off ev id).2 := by
  obtain ⟨hlt, hnd⟩ := h
  rcases hm : b.eventMap ev with - | m
  · simpa [Bus.off, hm] using And.intro hlt hnd
  · have hsub := off_flatIds b.listeners ev id m hm
    constructor
    · intro i hi
      rw [off_counter]
      exact hlt i (hsub.subset (by simpa [Bus.off, hm, Bus.liveIds] using hi))
    · have : (b.off ev id).2.liveIds
          = flatIds (putEventMap b.listeners ev (mapDelete m id).2) := by
        simp [Bus.off, hm, Bus.liveIds]
      rw [this]
      exact hnd.sublist hsub

theorem runBus_inv {α : Type} (ops : List (BusOp α)) :
    ∀ b : Bus α, BusInv b → BusInv (runBus b ops).1 := by
  induction ops with
  | nil => intro b h; exact h
  | cons op t ih =>
    intro b h
    cases op with
    | subscribe ev cb => exact ih _ (busInv_on b ev cb h)
    | unsubscribe ev id => exact ih _ (busInv_off b ev id h)

/-- C10: running any sequence of `on`/`off` calls against a fresh
instance, the handles returned by `on` are the consecutive values of the
single shared counter (`0, 1, 2, …`, independent of the event names
used), hence each `on` returns a handle strictly greater than every
handle returned before it, and no two live subscriptions — under any
event names — share a handle. -/
theorem on_handles_monotone_and_distinct {α : Type} (ops : List (BusOp α)) :
    (runBus ({} : Bus α) ops).2 = List.range' 0 (numOns ops)
    ∧ (runBus ({} : Bus α) ops).2.Pairwise (fun a b => a < b)
    ∧ (runBus ({} : Bus α) ops).1.liveIds.Nodup := by
  have hids := runBus_ids ops ({} : Bus α)
  refine ⟨hids, ?_, ?_⟩
  · rw [hids]
    exact List.pairwise_lt_range' 0 (numOns ops)
  · have hinv : BusInv ({} : Bus α) := by
      constructor
      · intro id hid
        simp [Bus.liveIds, flatIds] at hid
      · simp [Bus.liveIds, flatIds]
    exact (runBus_inv ops _ hinv).2

end VanillaRouter
